import Mathlib

/-!
Verification of the ftp_sync repository (`ftp_sync/FTP.py`) against its
natural-language specification.

The embedding models:
* file contents as `List Nat` (byte sequences);
* the patcher classes (`Patcher`, `DESMumePatcher`) as records of pure
  byte transforms;
* `pathlib.Path` operations `.name`, `.stem`, `.suffix` on POSIX-style
  path strings;
* the mutable state touched by `FTPSync` / `FTPHelper` — the local and
  remote filesystems, the digest store `hash_db`, the backup directory,
  and the `FTPHelper` download cache — as an explicit `SyncWorld` record
  threaded through each operation;
* `hashlib.md5` as an abstract digest function `md5 : List Nat → String`
  supplied as a parameter (instantiated with a concrete executable
  function in the concrete examples);
* Python exceptions (`error_perm` on a missing remote file, `ValueError`
  on touching a closed cached tempfile, `IOError` on a missing local
  file, `NotImplementedError`) as `Option` / `Except` failure results;
  `FTPSync._get_digest` catches only `error_perm` / `error_temp`, so
  `errorPerm` and `valueError` are kept apart where a caller treats them
  differently;
* `datetime` values as their already-formatted `strftime` strings, read
  from the world (`localLastMod`, `remoteLastMod`) or passed as a `now`
  parameter.

Recursive directory fan-out (`sync_to` / `sync_from` / `sync` call
themselves on directory pairs) is modelled with an explicit fuel
parameter; fuel exhaustion returns `none`.
-/

/-- Byte sequences, as read from files. -/
abbrev Bytes := List Nat

/-- The `Patcher` interface of `FTP.py`: a pair of byte transforms applied
at the local/remote boundary.  `to_remote` is applied before an upload,
`from_remote` after a download. -/
structure Patcher where
  to_remote : Bytes → Bytes
  from_remote : Bytes → Bytes

/-- One entry of a remote directory listing, as recovered from the parsed
`LIST` output: its final name component and whether the line marks a
directory (`line[0] == 'd'`). -/
structure RemoteEntry where
  name : String
  isDir : Bool
deriving DecidableEq, Repr

/-- The three sync verdicts `LOCAL_TO_REMOTE`, `REMOTE_TO_LOCAL`,
`DO_NOT_SYNC` of `FTPSync`. -/
inductive SyncDir where
  | localToRemote
  | remoteToLocal
  | doNotSync
deriving DecidableEq, Repr

/-- The exceptions the remote read path can raise and that some caller
distinguishes: `errorPerm` is `ftplib.error_perm`, raised by `RETR` on a
missing remote file and caught by `FTPSync._get_digest`; `valueError` is
Python's `ValueError` from `seek(0)` on a closed file, raised by the
download-cache hit paths and caught nowhere. -/
inductive FtpError where
  | errorPerm
  | valueError
deriving DecidableEq, Repr

/-! ## Path model (`pathlib.Path` name / stem / suffix) -/

/-- Split a character list on `'/'` separators (the component split
underlying `pathlib.PurePosixPath`). -/
def splitSlash : List Char → List (List Char)
  | [] => [[]]
  | c :: rest =>
    let r := splitSlash rest
    if c = '/' then [] :: r
    else
      match r with
      | [] => [[c]]
      | h :: t => (c :: h) :: t

/-- Path components after dropping empty components and `"."` components,
as `pathlib` does when parsing a path string. -/
def pathComponentsL (cs : List Char) : List (List Char) :=
  (splitSlash cs).filter (fun c => decide (c ≠ [] ∧ c ≠ ['.']))

/-- The final path component (`pathlib.Path(...).name`), as characters;
empty for a root or empty path. -/
def pathNameL (cs : List Char) : List Char :=
  (pathComponentsL cs).getLastD []

/-- `pathlib.Path(p).name`. -/
def pathName (p : String) : String :=
  ⟨pathNameL p.toList⟩

/-- The suffix of a final name component: `name[i:]` for the last index
`i` of `'.'` when `0 < i < len(name) - 1`, else empty — exactly
`pathlib`'s `suffix` computation. -/
def nameSuffixL (cs : List Char) : List Char :=
  let rev := cs.reverse
  let after := rev.takeWhile (fun c => c != '.')
  match rev.dropWhile (fun c => c != '.') with
  | [] => []
  | _ :: before =>
    if after ≠ [] ∧ before ≠ [] then '.' :: after.reverse else []

/-- The stem of a final name component: `name[:i]` for the last index `i`
of `'.'` when `0 < i < len(name) - 1`, else the whole name — exactly
`pathlib`'s `stem` computation. -/
def nameStemL (cs : List Char) : List Char :=
  let rev := cs.reverse
  let after := rev.takeWhile (fun c => c != '.')
  match rev.dropWhile (fun c => c != '.') with
  | [] => cs
  | _ :: before =>
    if after ≠ [] ∧ before ≠ [] then before.reverse else cs

/-- `pathlib.Path(p).suffix`. -/
def pathSuffix (p : String) : String :=
  ⟨nameSuffixL (pathNameL p.toList)⟩

/-- `pathlib.Path(p).stem`. -/
def pathStem (p : String) : String :=
  ⟨nameStemL (pathNameL p.toList)⟩

/-- The extension-remap step of `FTPSync.sync` (lines 198–202 of
`FTP.py`) for one side: when a suffix is declared for this side and the
path's current suffix differs, the path is replaced by
`str(Path(path).stem) + declared`. -/
def remapPath (path : String) (declared : Option String) : String :=
  match declared with
  | none => path
  | some ext => if pathSuffix path ≠ ext then pathStem path ++ ext else path

/-! ## The shipped patcher (`DESMumePatcher`) -/

/-- The fixed `DESMUME_FOOTER` byte constant of `DESMumePatcher`. -/
def DESMUME_FOOTER : Bytes :=
  (String.toList
    "|<--Snip above here to create a raw sav by excluding this DeSmuME savedata footer:").map
      Char.toNat
  ++ [1, 0, 4, 0, 0, 0, 8, 0, 6, 0, 0, 0, 3, 0, 0, 0, 0, 0, 8, 0, 0, 0, 0, 0]
  ++ (String.toList "|-DESMUME SAVE-|").map Char.toNat

/-- Python's `data[:k]` slice for an `int` bound `k`: negative bounds
count from the end and clamp at zero. -/
def pySliceUpTo (data : Bytes) (k : Int) : Bytes :=
  let k' : Int := if k < 0 then k + data.length else k
  data.take k'.toNat

/-- `DESMumePatcher.from_remote`: append the footer to the downloaded
bytes. -/
def desmume_from_remote (data : Bytes) : Bytes :=
  data ++ DESMUME_FOOTER

/-- `DESMumePatcher.to_remote`: drop the last `len(DESMUME_FOOTER)` bytes
via `data[:len(data) - len(DESMUME_FOOTER)]`. -/
def desmume_to_remote (data : Bytes) : Bytes :=
  pySliceUpTo data ((data.length : Int) - (DESMUME_FOOTER.length : Int))

/-- The shipped `DESMumePatcher` instance. -/
def DESMumePatcher : Patcher :=
  ⟨desmume_to_remote, desmume_from_remote⟩

/-! ## The mutable world touched by `FTPSync` / `FTPHelper` -/

/-- All state an `FTPSync` run reads or writes:
* `localFs` — local file contents by path (`none` = the path does not
  exist / `os.path.exists` is false);
* `localIsDir` / `remoteIsDir` — `os.path.isdir` and
  `FTPHelper.is_dir`;
* `remoteFs` — remote file contents by path (`none` = `RETR` fails with
  `error_perm`);
* `remoteListing` — the parsed one-level `LIST` output of a remote
  directory, as consumed by `FTPHelper.get_file_list`;
* `hdbLocal` / `hdbRemote` — the two partitions of `hash_db`, observed
  through `dict.get` (so a stored `None` and a missing key are both
  `none`);
* `cache` — the `FTPHelper` download cache between operations:
  `some rpath` when `download_cache` is not `None` and
  `download_cache_path == rpath`, else `none`.  Only the cached *path*
  is kept, because the cached tempfile itself is always closed by the
  time any later operation can reach it: the sole caller of
  `download_to_tempfile` (the only writer of the cache) is the `with`
  block of `FTPSync._get_digest` (FTP.py:95), which closes the returned
  — and cached — file right after hashing it.  Every later cache hit
  therefore `seek(0)`s a closed file and raises `ValueError`
  (FTP.py:253, FTP.py:269);
* `backupFs` — the contents of the backup directory, by file name;
* `localLastMod` / `remoteLastMod` — `get_last_modified(...).strftime`
  output per path, modelled as pre-formatted strings. -/
structure SyncWorld where
  localFs : String → Option Bytes
  localIsDir : String → Bool
  remoteFs : String → Option Bytes
  remoteIsDir : String → Bool
  remoteListing : String → List RemoteEntry
  hdbLocal : String → Option String
  hdbRemote : String → Option String
  cache : Option String
  backupFs : String → Option Bytes
  localLastMod : String → String
  remoteLastMod : String → String

/-- Point update of a map modelled as a function. -/
def updateFn (f : String → Option α) (k : String) (v : Option α) : String → Option α :=
  fun x => if x = k then v else f x

/-- Whether the hit test `download_cache_path == remote_path and
download_cache is not None` succeeds for `rpath`.  A hit never yields
readable bytes: the cached tempfile is closed (see `SyncWorld.cache`),
so the paths taking a hit raise `ValueError`. -/
def cacheHit (w : SyncWorld) (rpath : String) : Bool :=
  match w.cache with
  | some cp => cp = rpath
  | none => false

/-- The result of `f.seek(0); f.write(new)` on a tempfile currently
holding `orig`: the write does not truncate, so any tail of `orig`
beyond `new` survives. -/
def overwriteFrom (orig new : Bytes) : Bytes :=
  new ++ orig.drop new.length

/-- The tempfile contents after `download_to_tempfile`'s patch step: the
raw download, or (with a patcher) `from_remote(raw)` written back over
the raw bytes without truncation. -/
def patchedDownload (p : Option Patcher) (raw : Bytes) : Bytes :=
  match p with
  | none => raw
  | some pat => overwriteFrom raw (pat.from_remote raw)

/-- `FTPHelper.download_to_tempfile`: on a cache hit the source
`seek(0)`s the cached tempfile (FTP.py:269) — which is closed, so the
call raises `ValueError`; otherwise it fetches the raw remote bytes
(`errorPerm` when the `RETR` fails), applies the patcher step, and
caches the new tempfile keyed by `rpath`.  The successful result is the
updated world together with the tempfile contents read by the caller;
that caller's `with` block then closes the tempfile, so the post-state
cache records only the path. -/
def download_to_tempfile (w : SyncWorld) (rpath : String) (p : Option Patcher) :
    Except FtpError (SyncWorld × Bytes) :=
  if cacheHit w rpath then Except.error FtpError.valueError
  else
    match w.remoteFs rpath with
    | none => Except.error FtpError.errorPerm
    | some raw => Except.ok ({ w with cache := some rpath }, patchedDownload p raw)

/-- The bytes `FTPHelper.download_file` writes to its destination.  On a
cache hit the source `seek(0)`s the closed cached tempfile (FTP.py:253)
and raises `ValueError`; on a miss a missing remote file raises
`error_perm`.  Neither exception is caught in any caller of
`download_file`, so both failure modes are `none`. -/
def downloadContentVia (w : SyncWorld) (rpath : String) (p : Option Patcher) : Option Bytes :=
  if cacheHit w rpath then none
  else
    (w.remoteFs rpath).map (fun raw =>
      match p with
      | none => raw
      | some pat => pat.from_remote raw)

/-- `FTPHelper.download_file(remote_path, local_path, patcher)`: write
the downloaded (and possibly patched) bytes to the local path.  The
cache is not modified by this operation.  A `none` result is an
uncaught exception aborting the enclosing operation (the source may
leave a truncated destination file behind before raising; no claim here
depends on post-crash file contents). -/
def download_file (w : SyncWorld) (rpath lpath : String) (p : Option Patcher) :
    Option SyncWorld :=
  (downloadContentVia w rpath p).map (fun c =>
    { w with localFs := updateFn w.localFs lpath (some c) })

/-- The bytes `FTPHelper.upload_file` sends: `to_remote(local)` with a
patcher (written to a fresh tempfile, so exact), else the raw local
bytes. -/
def uploadBytes (p : Option Patcher) (bs : Bytes) : Bytes :=
  match p with
  | none => bs
  | some pat => pat.to_remote bs

/-- `FTPHelper.upload_file(local_path, remote_path, patcher)`: `none`
when the local file cannot be opened; otherwise the remote path now
holds the (transformed) local bytes. -/
def upload_file (w : SyncWorld) (lpath rpath : String) (p : Option Patcher) :
    Option SyncWorld :=
  (w.localFs lpath).map (fun bs =>
    { w with remoteFs := updateFn w.remoteFs rpath (some (uploadBytes p bs)) })

/-- `FTPSync._get_digest(path, remote=False)`: the digest of the local
bytes, `none` when the path does not exist. -/
def get_digest_local (md5 : Bytes → String) (w : SyncWorld) (path : String) : Option String :=
  (w.localFs path).map md5

/-- `FTPSync._get_digest(path, remote=True, patcher)`: download to a
tempfile and hash its contents inside a `with` block that closes the
tempfile afterwards — leaving the cache entry set by the download
pointing at a closed file (a fact `SyncWorld.cache` carries by storing
only the cached path).  The `error_perm` / `error_temp` of a missing
remote file is caught and becomes digest `none`; the `ValueError` of a
cache hit on the closed cached tempfile is not caught and propagates. -/
def get_digest_remote (md5 : Bytes → String) (w : SyncWorld) (rpath : String)
    (p : Option Patcher) : Except FtpError (SyncWorld × Option String) :=
  match download_to_tempfile w rpath p with
  | Except.ok (w1, content) => Except.ok (w1, some (md5 content))
  | Except.error FtpError.errorPerm => Except.ok (w, none)
  | Except.error FtpError.valueError => Except.error FtpError.valueError

/-- `FTPSync._set_previous_digest(path, digest, remote)`. -/
def set_previous_digest (w : SyncWorld) (path : String) (digest : Option String)
    (remote : Bool) : SyncWorld :=
  if remote then { w with hdbRemote := updateFn w.hdbRemote path digest }
  else { w with hdbLocal := updateFn w.hdbLocal path digest }

/-! ## Backup manager -/

/-- The `BackupEntry` file name built by `FTPSync.backup`: the subject's
formatted last-modified time, the formatted backup time, then every
segment of the absolute path (everything after the leading slash),
joined by the fixed separator.  `lastMod` and `now` stand for the two
`strftime(DATE_FORMAT)` strings.  The model takes the path as already
absolute (a relative path would first go through `Path.resolve`, which
depends on the process working directory and is outside the model). -/
def backupFilename (lastMod now path : String) : String :=
  (((splitSlash path.toList).map (fun cs => (⟨cs⟩ : String))).drop 1).foldl
    (fun acc d => acc ++ "___" ++ d) (lastMod ++ "___" ++ now)

/-- `FTPSync.backup(path, remote)`.  The remote branch downloads the
remote file (no patcher is passed) into the backup directory and fails
(`none`, an uncaught `error_perm`) when the remote path is missing and
uncached.  The local branch opens the backup destination with mode
`w+b` first — creating the (empty) backup file — and only then checks
whether the source exists, copying its bytes when it does and merely
logging when it does not. -/
def backup (w : SyncWorld) (now : String) (path : String) (remote : Bool) :
    Option SyncWorld :=
  let lastMod := if remote then w.remoteLastMod path else w.localLastMod path
  let fname := backupFilename lastMod now path
  if remote then
    (downloadContentVia w path none).map (fun c =>
      { w with backupFs := updateFn w.backupFs fname (some c) })
  else
    match w.localFs path with
    | some content => some { w with backupFs := updateFn w.backupFs fname (some content) }
    | none => some { w with backupFs := updateFn w.backupFs fname (some []) }

/-! ## The decision engine -/

/-- The decision table of `FTPSync._get_sync_direction` (lines 112–136
of `FTP.py`), as a pure function of the two stored digests and the two
current digests, returning the verdict and the carried digest. -/
def verdictOf (lpPrev rpPrev lpHash rpHash : Option String) : SyncDir × Option String :=
  if rpHash = none ∧ lpHash = none then (SyncDir.doNotSync, none)
  else if rpHash = none ∧ lpHash ≠ none then (SyncDir.localToRemote, lpHash)
  else if rpHash ≠ none ∧ lpHash = none then (SyncDir.remoteToLocal, rpHash)
  else if lpPrev = rpPrev then
    if rpHash ≠ rpPrev ∧ lpHash = lpPrev then (SyncDir.remoteToLocal, rpHash)
    else if rpHash = rpPrev ∧ lpHash ≠ lpPrev then (SyncDir.localToRemote, lpHash)
    else if rpHash = rpPrev ∧ lpHash = lpPrev then (SyncDir.doNotSync, none)
    else (SyncDir.doNotSync, none)
  else (SyncDir.doNotSync, none)

/-- `FTPSync._get_sync_direction(local_path, remote_path, patcher)`:
read the two stored digests, compute the local digest, compute the
remote digest (which may populate the download cache, or raise an
uncaught `ValueError` on a hit against the closed cached tempfile), and
apply the decision table.  Returns the updated world with the verdict
and carried digest, or the propagated error. -/
def get_sync_direction (md5 : Bytes → String) (w : SyncWorld) (lpath rpath : String)
    (p : Option Patcher) : Except FtpError (SyncWorld × SyncDir × Option String) :=
  match get_digest_remote md5 w rpath p with
  | Except.error e => Except.error e
  | Except.ok (w1, rpHash) =>
    Except.ok (w1, verdictOf (w.hdbLocal lpath) (w.hdbRemote rpath)
      (get_digest_local md5 w lpath) rpHash)

/-! ## Directory listing -/

/-- `FTPHelper.get_file_list(d, recurse)`: raise `NotImplementedError`
when recursion is requested (before any listing is read); otherwise
collect `Path(d) / name` for every listing line that does not mark a
directory. -/
def get_file_list (d : String) (listing : List RemoteEntry) (recurse : Bool) :
    Except String (List String) :=
  if recurse then Except.error "Recursive sync not implemented yet"
  else
    Except.ok (listing.foldl
      (fun files line => if line.isDir then files else files ++ [d ++ "/" ++ line.name]) [])

/-! ## Transfer operations -/

/-- `FTPSync.sync_to(local_path, remote_path, patcher, digest)` with
explicit recursion fuel.  Directory pair: one child `sync_to` per file
of the remote listing (`digest` is not forwarded).  File pair: compute
the digest of the local file when none was supplied, back up the remote
file, upload, then write the same digest into both `hash_db`
partitions.  Mismatched kinds only log an error. -/
def sync_to (md5 : Bytes → String) :
    Nat → SyncWorld → String → String → Option Patcher → Option String → String →
    Option SyncWorld
  | 0, _, _, _, _, _, _ => none
  | Nat.succ fuel, w, lpath, rpath, p, digest, now =>
    let lDir := w.localIsDir lpath
    let rDir := w.remoteIsDir rpath
    if lDir ∧ rDir then
      match get_file_list rpath (w.remoteListing rpath) false with
      | Except.error _ => none
      | Except.ok files =>
        files.foldlM (fun wa file =>
          sync_to md5 fuel wa (lpath ++ "/" ++ pathName file) file p none now) w
    else if ¬lDir ∧ ¬rDir then
      let digest := match digest with
        | none => get_digest_local md5 w lpath
        | some d => some d
      match backup w now rpath true with
      | none => none
      | some w1 =>
        match upload_file w1 lpath rpath p with
        | none => none
        | some w2 =>
          some (set_previous_digest (set_previous_digest w2 lpath digest false)
            rpath digest true)
    else some w

/-- `FTPSync.sync_from(local_path, remote_path, patcher, digest)` with
explicit recursion fuel.  Directory pair: the source delegates each
child to `sync_to` (lines 176–179 of `FTP.py`), not to `sync_from`.
File pair: back up the local file, download over it, compute the digest
of the freshly written local file when none was supplied, then write
the same digest into both `hash_db` partitions. -/
def sync_from (md5 : Bytes → String) :
    Nat → SyncWorld → String → String → Option Patcher → Option String → String →
    Option SyncWorld
  | 0, _, _, _, _, _, _ => none
  | Nat.succ fuel, w, lpath, rpath, p, digest, now =>
    let lDir := w.localIsDir lpath
    let rDir := w.remoteIsDir rpath
    if lDir ∧ rDir then
      match get_file_list rpath (w.remoteListing rpath) false with
      | Except.error _ => none
      | Except.ok files =>
        files.foldlM (fun wa file =>
          sync_to md5 fuel wa (lpath ++ "/" ++ pathName file) file p none now) w
    else if ¬lDir ∧ ¬rDir then
      match backup w now lpath false with
      | none => none
      | some w1 =>
        match download_file w1 rpath lpath p with
        | none => none
        | some w2 =>
          let digest := match digest with
            | none => get_digest_local md5 w2 lpath
            | some d => some d
          some (set_previous_digest (set_previous_digest w2 lpath digest false)
            rpath digest true)
    else some w

/-- The optional extension remap of a `SyncPair`: the declared local and
remote suffixes, either of which may be absent (`"local" in extensions`
/ `"remote" in extensions`). -/
structure ExtMap where
  localExt : Option String
  remoteExt : Option String

/-- `FTPSync.sync(local_path, remote_path, patcher, extensions)` with
explicit recursion fuel.  Directory pair: recurse per remote listing
entry (dropping the extension map).  Then the extension remap rewrites
each side's path, the verdict is computed on the rewritten paths, and
the corresponding transfer runs with the carried digest.  Mismatched
kinds only log an error. -/
def sync (md5 : Bytes → String) :
    Nat → SyncWorld → String → String → Option Patcher → Option ExtMap → String →
    Option SyncWorld
  | 0, _, _, _, _, _, _ => none
  | Nat.succ fuel, w, lpath, rpath, p, exts, now =>
    let lDir := w.localIsDir lpath
    let rDir := w.remoteIsDir rpath
    let w0 :=
      if lDir ∧ rDir then
        match get_file_list rpath (w.remoteListing rpath) false with
        | Except.error _ => none
        | Except.ok files =>
          files.foldlM (fun wa file =>
            sync md5 fuel wa (lpath ++ "/" ++ pathName file) file p none now) w
      else some w
    match w0 with
    | none => none
    | some w0 =>
      let lpath := match exts with
        | none => lpath
        | some e => remapPath lpath e.localExt
      let rpath := match exts with
        | none => rpath
        | some e => remapPath rpath e.remoteExt
      if ¬lDir ∧ ¬rDir then
        match get_sync_direction md5 w0 lpath rpath p with
        | Except.error _ => none
        | Except.ok (w1, SyncDir.localToRemote, digest) =>
          sync_to md5 fuel w1 lpath rpath p digest now
        | Except.ok (w1, SyncDir.remoteToLocal, digest) =>
          sync_from md5 fuel w1 lpath rpath p digest now
        | Except.ok (w1, SyncDir.doNotSync, _) => some w1
      else some w0

/-! ## Concrete instances used in the examples -/

/-- An executable stand-in for `hashlib.md5(...).hexdigest()` in the
concrete examples: a digest string that is injective on byte sequences
(each byte printed followed by a separator), which is all the examples
rely on. -/
def cexHash : Bytes → String
  | [] => ""
  | n :: rest => Nat.repr n ++ "." ++ cexHash rest

/-- A world whose filesystems are completely empty. -/
def emptyWorld : SyncWorld where
  localFs := fun _ => none
  localIsDir := fun _ => false
  remoteFs := fun _ => none
  remoteIsDir := fun _ => false
  remoteListing := fun _ => []
  hdbLocal := fun _ => none
  hdbRemote := fun _ => none
  cache := none
  backupFs := fun _ => none
  localLastMod := fun _ => "01_01_1970_00_00"
  remoteLastMod := fun _ => "01_01_1970_00_00"

/-- Local file `"L"` present, remote `"R"` absent, no history. -/
def worldLocalOnly : SyncWorld :=
  { emptyWorld with localFs := fun s => if s = "L" then some [1] else none }

/-- Remote file `"R"` present, local `"L"` absent, no history. -/
def worldRemoteOnly : SyncWorld :=
  { emptyWorld with remoteFs := fun s => if s = "R" then some [2] else none }

/-- Both sides present with differing contents and an agreeing but stale
recorded history: a conflict state. -/
def worldConflict : SyncWorld :=
  { emptyWorld with
    localFs := fun s => if s = "L" then some [1] else none
    remoteFs := fun s => if s = "R" then some [2] else none
    hdbLocal := fun s => if s = "L" then some "old" else none
    hdbRemote := fun s => if s = "R" then some "old" else none }

/-- Both sides present with differing contents and no history (a plain
file pair used to exercise the transfer operations). -/
def worldPair : SyncWorld :=
  { emptyWorld with
    localFs := fun s => if s = "L" then some [1] else none
    remoteFs := fun s => if s = "R" then some [2] else none }


/-- A directory pair: local directory `"L"` holding `"L/f"`, remote
directory `"R"` whose listing shows the single file `"f"` with content
at `"R/f"`. -/
def worldDirPair : SyncWorld :=
  { emptyWorld with
    localFs := fun s => if s = "L/f" then some [7] else none
    localIsDir := fun s => s = "L"
    remoteFs := fun s => if s = "R/f" then some [9] else none
    remoteIsDir := fun s => s = "R"
    remoteListing := fun s => if s = "R" then [⟨"f", false⟩] else [] }

/-- The world after the concrete push of `worldPair` (used to state the
convergence example). -/
def worldAfterPush : SyncWorld :=
  (sync_to cexHash 1 worldPair "L" "R" none none "t" ).getD worldPair

/-- The world after the concrete push of `worldPair` through the shipped
`DESMumePatcher` (whose `to_remote` strips more bytes than the one-byte
local file has). -/
def worldAfterShortPush : SyncWorld :=
  (sync_to cexHash 1 worldPair "L" "R" (some DESMumePatcher) none "t" ).getD worldPair

/-- The world after the concrete seeding pull of `worldRemoteOnly` (the
local file does not exist before the pull). -/
def worldAfterSeedPull : SyncWorld :=
  (sync_from cexHash 1 worldRemoteOnly "L" "R" none none "t" ).getD worldRemoteOnly

/-- The world after running `sync_from` on the directory pair
`worldDirPair`. -/
def worldAfterDirPull : SyncWorld :=
  (sync_from cexHash 2 worldDirPair "L" "R" none none "t" ).getD worldDirPair

/-! ## Helper lemmas -/

theorem desmume_to_remote_append (z : Bytes) :
    desmume_to_remote (z ++ DESMUME_FOOTER) = z := by
  unfold desmume_to_remote pySliceUpTo
  have h1 : ((z ++ DESMUME_FOOTER).length : Int) - (DESMUME_FOOTER.length : Int)
      = (z.length : Int) := by
    simp [List.length_append]
  rw [h1]
  have h2 : ¬ ((z.length : Int) < 0) := by
    simp
  rw [if_neg h2]
  show List.take ((z.length : Int)).toNat (z ++ DESMUME_FOOTER) = z
  rw [Int.toNat_natCast]
  exact List.take_left z DESMUME_FOOTER

theorem get_file_list_foldl (d : String) (listing : List RemoteEntry) (acc : List String) :
    listing.foldl
        (fun files line => if line.isDir then files else files ++ [d ++ "/" ++ line.name]) acc
      = acc ++ (listing.filter (fun e => !e.isDir)).map (fun e => d ++ "/" ++ e.name) := by
  induction listing generalizing acc with
  | nil => simp
  | cons e rest ih =>
    cases he : e.isDir with
    | true => simp [he, ih]
    | false => simp [he, ih]

/-! ## Claim theorems -/

/-- C4.  For the shipped `DESMumePatcher`, `to_remote` undoes
`from_remote` on every byte sequence, and `from_remote` undoes
`to_remote` on every byte sequence that ends with `DESMUME_FOOTER`. -/
theorem desmume_round_trip :
    (∀ x : Bytes, desmume_to_remote (desmume_from_remote x) = x)
  ∧ (∀ y : Bytes, DESMUME_FOOTER <:+ y →
      desmume_from_remote (desmume_to_remote y) = y) := by
  constructor
  · intro x
    exact desmume_to_remote_append x
  · intro y hy
    obtain ⟨z, hz⟩ := hy
    rw [← hz, desmume_to_remote_append]
    rfl

/-- Witness for C4 at concrete inputs. -/
theorem desmume_round_trip_w :
    desmume_to_remote (desmume_from_remote [1, 2, 3]) = [1, 2, 3]
  ∧ desmume_from_remote (desmume_to_remote ([5] ++ DESMUME_FOOTER)) = [5] ++ DESMUME_FOOTER :=
  ⟨desmume_round_trip.1 [1, 2, 3],
   desmume_round_trip.2 ([5] ++ DESMUME_FOOTER) ⟨[5], rfl⟩⟩

/-- C8.  `get_file_list` with `recurse = false` returns exactly the
non-directory entries of the one-level listing (each joined onto the
directory path; directory entries are excluded, not descended into),
and with `recurse = true` it fails with the not-implemented error
independently of any listing (the failure is raised before a listing is
read). -/
theorem get_file_list_correct (d : String) (listing : List RemoteEntry) :
    get_file_list d listing false =
      Except.ok ((listing.filter (fun e => !e.isDir)).map (fun e => d ++ "/" ++ e.name))
  ∧ ∀ l : List RemoteEntry,
      get_file_list d l true = Except.error "Recursive sync not implemented yet" := by
  constructor
  · unfold get_file_list
    rw [if_neg (by simp)]
    rw [get_file_list_foldl]
    simp
  · intro l
    rfl

/-- C7 counterexample.  `backup` of a non-existent local path is not a
no-op on the backup directory: at a concrete world the call succeeds
but a new, empty backup file appears. -/
theorem backup_missing_creates_file_cex :
    worldPair.localFs "/a/b" = none
  ∧ worldPair.backupFs (backupFilename (worldPair.localLastMod "/a/b") "t2" "/a/b") = none
  ∧ ∃ w', backup worldPair "t2" "/a/b" false = some w'
      ∧ w'.backupFs (backupFilename (worldPair.localLastMod "/a/b") "t2" "/a/b") = some [] := by
  refine ⟨rfl, rfl, (backup worldPair "t2" "/a/b" false).getD worldPair, rfl, by decide⟩

/-- C7 amended.  `backup(path, remote=False)` on a non-existent local
path raises no error and copies no bytes, but it does create one empty
backup file (the destination is opened with `w+b` before the existence
check); every other backup entry and all other world components are
unchanged. -/
theorem backup_missing_no_error_creates_empty_file (w : SyncWorld) (now path : String)
    (h : w.localFs path = none) :
    ∃ w', backup w now path false = some w'
      ∧ w'.backupFs (backupFilename (w.localLastMod path) now path) = some []
      ∧ (∀ f, f ≠ backupFilename (w.localLastMod path) now path →
          w'.backupFs f = w.backupFs f)
      ∧ w'.localFs = w.localFs ∧ w'.remoteFs = w.remoteFs
      ∧ w'.hdbLocal = w.hdbLocal ∧ w'.hdbRemote = w.hdbRemote ∧ w'.cache = w.cache := by
  refine ⟨{ w with backupFs := updateFn w.backupFs (backupFilename (w.localLastMod path) now path) (some []) }, ?_, ?_, ?_, rfl, rfl, rfl, rfl, rfl⟩
  · simp [backup, h]
  · simp [updateFn]
  · intro f hf
    simp [updateFn, hf]

/-- Witness for the amended C7 at a concrete world. -/
theorem backup_missing_no_error_creates_empty_file_w :
    ∃ w', backup emptyWorld "t9" "/x/y" false = some w'
      ∧ w'.backupFs (backupFilename (emptyWorld.localLastMod "/x/y") "t9" "/x/y") = some []
      ∧ (∀ f, f ≠ backupFilename (emptyWorld.localLastMod "/x/y") "t9" "/x/y" →
          w'.backupFs f = emptyWorld.backupFs f)
      ∧ w'.localFs = emptyWorld.localFs ∧ w'.remoteFs = emptyWorld.remoteFs
      ∧ w'.hdbLocal = emptyWorld.hdbLocal ∧ w'.hdbRemote = emptyWorld.hdbRemote
      ∧ w'.cache = emptyWorld.cache :=
  backup_missing_no_error_creates_empty_file emptyWorld "t9" "/x/y" rfl

/-- C6.  At a concrete directory pair (local directory `"L"` holding
`"L/f" = [7]`, remote directory `"R"` listing the file `"f"` with
`"R/f" = [9]`), `sync_from` succeeds but every child transfer moves
data local-to-remote: the remote child ends up holding the local bytes
`[7]` and the local child is untouched — the directory branch of
`sync_from` delegates each child to `sync_to` (lines 176–179 of
`FTP.py`), contradicting the pull direction the claim describes. -/
theorem sync_from_dir_pushes_children :
    worldDirPair.localFs "L/f" = some [7]
  ∧ worldDirPair.remoteFs "R/f" = some [9]
  ∧ sync_from cexHash 2 worldDirPair "L" "R" none none "t" = some worldAfterDirPull
  ∧ worldAfterDirPull.remoteFs "R/f" = some [7]
  ∧ worldAfterDirPull.localFs "L/f" = some [7] := by
  exact ⟨rfl, rfl, rfl, by decide, rfl⟩

theorem verdictOf_conflict (lpPrev rpPrev : Option String) (a b : String)
    (hc : (some a ≠ lpPrev ∧ some b ≠ rpPrev) ∨ lpPrev ≠ rpPrev) :
    verdictOf lpPrev rpPrev (some a) (some b) = (SyncDir.doNotSync, none) := by
  rcases hc with ⟨hl, hr⟩ | hne
  · by_cases h : lpPrev = rpPrev
    · subst h
      simp [verdictOf, hl, hr]
    · simp [verdictOf, h]
  · simp [verdictOf, hne]

theorem verdictOf_missing (lpPrev rpPrev : Option String) :
    verdictOf lpPrev rpPrev none none = (SyncDir.doNotSync, none)
  ∧ (∀ b, verdictOf lpPrev rpPrev none (some b) = (SyncDir.remoteToLocal, some b))
  ∧ (∀ a, verdictOf lpPrev rpPrev (some a) none = (SyncDir.localToRemote, some a)) := by
  refine ⟨by simp [verdictOf], fun b => by simp [verdictOf], fun a => by simp [verdictOf]⟩

/-- C1.  When both current digests are present (the remote digest
computation having succeeded), a conflict — both current digests differ
from their respective stored digests, or the two stored digests
disagree with each other — makes `_get_sync_direction` return
`DO_NOT_SYNC` (with no carried digest), never a directional verdict. -/
theorem conflict_refuses_directional_verdict (md5 : Bytes → String) (w w1 : SyncWorld)
    (lpath rpath : String) (p : Option Patcher) (a b : String)
    (hl : get_digest_local md5 w lpath = some a)
    (hr : get_digest_remote md5 w rpath p = Except.ok (w1, some b))
    (hc : (some a ≠ w.hdbLocal lpath ∧ some b ≠ w.hdbRemote rpath)
        ∨ w.hdbLocal lpath ≠ w.hdbRemote rpath) :
    get_sync_direction md5 w lpath rpath p
      = Except.ok (w1, SyncDir.doNotSync, none) := by
  unfold get_sync_direction
  simp only [hr]
  rw [hl, verdictOf_conflict _ _ a b hc]

/-- Witness for C1: both sides changed relative to an agreeing stored
history, so the verdict is `DO_NOT_SYNC`. -/
theorem conflict_refuses_directional_verdict_w :
    get_sync_direction cexHash worldConflict "L" "R" none
      = Except.ok ({ worldConflict with cache := some "R" }, SyncDir.doNotSync, none) :=
  conflict_refuses_directional_verdict cexHash worldConflict
    { worldConflict with cache := some "R" } "L" "R" none
    (cexHash [1]) (cexHash [2]) rfl rfl (Or.inl ⟨by decide, by decide⟩)

/-- C3.  The missing-side rule of `_get_sync_direction`, holding for any
recorded history: both current digests absent gives `DO_NOT_SYNC`; only
the local digest absent gives `REMOTE_TO_LOCAL` (carrying the remote
digest); only the remote digest absent gives `LOCAL_TO_REMOTE`
(carrying the local digest). -/
theorem missing_side_rule (md5 : Bytes → String) (w : SyncWorld) (lpath rpath : String)
    (p : Option Patcher) :
    (∀ w1, get_digest_local md5 w lpath = none →
      get_digest_remote md5 w rpath p = Except.ok (w1, none) →
      get_sync_direction md5 w lpath rpath p = Except.ok (w1, SyncDir.doNotSync, none))
  ∧ (∀ w1 b, get_digest_local md5 w lpath = none →
      get_digest_remote md5 w rpath p = Except.ok (w1, some b) →
      get_sync_direction md5 w lpath rpath p = Except.ok (w1, SyncDir.remoteToLocal, some b))
  ∧ (∀ w1 a, get_digest_local md5 w lpath = some a →
      get_digest_remote md5 w rpath p = Except.ok (w1, none) →
      get_sync_direction md5 w lpath rpath p = Except.ok (w1, SyncDir.localToRemote, some a)) := by
  refine ⟨fun w1 hl hr => ?_, fun w1 b hl hr => ?_, fun w1 a hl hr => ?_⟩
  · unfold get_sync_direction
    simp only [hr]
    rw [hl, (verdictOf_missing (w.hdbLocal lpath) (w.hdbRemote rpath)).1]
  · unfold get_sync_direction
    simp only [hr]
    rw [hl, (verdictOf_missing (w.hdbLocal lpath) (w.hdbRemote rpath)).2.1 b]
  · unfold get_sync_direction
    simp only [hr]
    rw [hl, (verdictOf_missing (w.hdbLocal lpath) (w.hdbRemote rpath)).2.2 a]

/-- Witness for C3 at three concrete worlds: both sides absent, local
absent only, and remote absent only (the last with absent remote
history, the seeding case). -/
theorem missing_side_rule_w :
    get_sync_direction cexHash emptyWorld "L" "R" none
      = Except.ok (emptyWorld, SyncDir.doNotSync, none)
  ∧ get_sync_direction cexHash worldRemoteOnly "L" "R" none
      = Except.ok ({ worldRemoteOnly with cache := some "R" },
          SyncDir.remoteToLocal, some (cexHash [2]))
  ∧ get_sync_direction cexHash worldLocalOnly "L" "R" none
      = Except.ok (worldLocalOnly, SyncDir.localToRemote, some (cexHash [1])) :=
  ⟨(missing_side_rule cexHash emptyWorld "L" "R" none).1 emptyWorld rfl rfl,
   (missing_side_rule cexHash worldRemoteOnly "L" "R" none).2.1
     { worldRemoteOnly with cache := some "R" } (cexHash [2]) rfl rfl,
   (missing_side_rule cexHash worldLocalOnly "L" "R" none).2.2
     worldLocalOnly (cexHash [1]) rfl rfl⟩

theorem backup_fields (w w' : SyncWorld) (now path : String) (remote : Bool)
    (h : backup w now path remote = some w') :
    w'.localFs = w.localFs ∧ w'.remoteFs = w.remoteFs ∧ w'.hdbLocal = w.hdbLocal
  ∧ w'.hdbRemote = w.hdbRemote ∧ w'.cache = w.cache := by
  unfold backup at h
  cases remote with
  | true =>
    rw [if_pos rfl] at h
    rw [Option.map_eq_some'] at h
    obtain ⟨c, _, hw⟩ := h
    subst hw
    exact ⟨rfl, rfl, rfl, rfl, rfl⟩
  | false =>
    rw [if_neg (by simp)] at h
    cases hl : w.localFs path with
    | some content =>
      rw [hl] at h
      cases h
      exact ⟨rfl, rfl, rfl, rfl, rfl⟩
    | none =>
      rw [hl] at h
      cases h
      exact ⟨rfl, rfl, rfl, rfl, rfl⟩

theorem upload_file_fields (w w' : SyncWorld) (lpath rpath : String) (p : Option Patcher)
    (h : upload_file w lpath rpath p = some w') :
    w'.localFs = w.localFs ∧ w'.hdbLocal = w.hdbLocal ∧ w'.hdbRemote = w.hdbRemote
  ∧ w'.cache = w.cache
  ∧ ∃ bs, w.localFs lpath = some bs
      ∧ w'.remoteFs = updateFn w.remoteFs rpath (some (uploadBytes p bs)) := by
  unfold upload_file at h
  rw [Option.map_eq_some'] at h
  obtain ⟨bs, hbs, hw⟩ := h
  subst hw
  exact ⟨rfl, rfl, rfl, rfl, bs, hbs, rfl⟩

theorem download_file_fields (w w' : SyncWorld) (rpath lpath : String) (p : Option Patcher)
    (h : download_file w rpath lpath p = some w') :
    w'.remoteFs = w.remoteFs ∧ w'.hdbLocal = w.hdbLocal ∧ w'.hdbRemote = w.hdbRemote
  ∧ w'.cache = w.cache
  ∧ ∃ c, downloadContentVia w rpath p = some c
      ∧ w'.localFs = updateFn w.localFs lpath (some c) := by
  unfold download_file at h
  rw [Option.map_eq_some'] at h
  obtain ⟨c, hc, hw⟩ := h
  subst hw
  exact ⟨rfl, rfl, rfl, rfl, c, hc, rfl⟩

/-- C2.  Every successful `sync_to` on a file pair, and independently
every successful `sync_from` on a file pair, writes one digest value
into both partitions of the digest store — local keyed by the local
path, remote keyed by the remote path — so the two recorded digests for
the pair are equal afterwards, and no other key of either partition
changes.  The two transfers are separate implications, so each covers
all of its own successful runs (including seeding pulls with no local
file, where a push from the same world would fail). -/
theorem transfer_dual_digest_write (md5 : Bytes → String) (n : Nat) (w : SyncWorld)
    (lpath rpath : String) (p : Option Patcher) (dg : Option String) (now : String)
    (hld : w.localIsDir lpath = false) (hrd : w.remoteIsDir rpath = false) :
    (∀ w1, sync_to md5 (n + 1) w lpath rpath p dg now = some w1 →
      w1.hdbLocal lpath = w1.hdbRemote rpath
      ∧ (∀ x, x ≠ lpath → w1.hdbLocal x = w.hdbLocal x)
      ∧ (∀ y, y ≠ rpath → w1.hdbRemote y = w.hdbRemote y))
  ∧ (∀ w2, sync_from md5 (n + 1) w lpath rpath p dg now = some w2 →
      w2.hdbLocal lpath = w2.hdbRemote rpath
      ∧ (∀ x, x ≠ lpath → w2.hdbLocal x = w.hdbLocal x)
      ∧ (∀ y, y ≠ rpath → w2.hdbRemote y = w.hdbRemote y)) := by
  constructor
  · intro w1 hto
    simp only [sync_to, hld, hrd] at hto
    rw [if_neg (by simp), if_pos (by simp)] at hto
    cases hb : backup w now rpath true with
    | none =>
      simp only [hb] at hto
      exact Option.noConfusion hto
    | some wb =>
      simp only [hb] at hto
      cases hu : upload_file wb lpath rpath p with
      | none =>
        simp only [hu] at hto
        exact Option.noConfusion hto
      | some wu =>
        simp only [hu] at hto
        obtain rfl := Option.some.inj hto
        obtain ⟨-, -, hbl, hbr, -⟩ := backup_fields w wb now rpath true hb
        obtain ⟨-, hul, hur, -, -⟩ := upload_file_fields wb wu lpath rpath p hu
        refine ⟨by simp [set_previous_digest, updateFn], ?_, ?_⟩
        · intro x hx
          simp [set_previous_digest, updateFn, hx, hul, hbl]
        · intro y hy
          simp [set_previous_digest, updateFn, hy, hur, hbr]
  · intro w2 hfrom
    simp only [sync_from, hld, hrd] at hfrom
    rw [if_neg (by simp), if_pos (by simp)] at hfrom
    cases hb : backup w now lpath false with
    | none =>
      simp only [hb] at hfrom
      exact Option.noConfusion hfrom
    | some wb =>
      simp only [hb] at hfrom
      cases hd : download_file wb rpath lpath p with
      | none =>
        simp only [hd] at hfrom
        exact Option.noConfusion hfrom
      | some wd =>
        simp only [hd] at hfrom
        obtain rfl := Option.some.inj hfrom
        obtain ⟨-, -, hbl, hbr, -⟩ := backup_fields w wb now lpath false hb
        obtain ⟨-, hdl, hdr, -, -⟩ := download_file_fields wb wd rpath lpath p hd
        refine ⟨by simp [set_previous_digest, updateFn], ?_, ?_⟩
        · intro x hx
          simp [set_previous_digest, updateFn, hx, hdl, hbl]
        · intro y hy
          simp [set_previous_digest, updateFn, hy, hdr, hbr]

/-- Witness for C2: the concrete push of `worldPair` and — separately —
the concrete seeding pull of `worldRemoteOnly` (local file absent, so a
push from that world would fail) both leave equal recorded digests on
both sides. -/
theorem transfer_dual_digest_write_w :
    worldAfterPush.hdbLocal "L" = worldAfterPush.hdbRemote "R"
  ∧ worldAfterSeedPull.hdbLocal "L" = worldAfterSeedPull.hdbRemote "R" := by
  have h1 := (transfer_dual_digest_write cexHash 0 worldPair "L" "R" none none "t"
    rfl rfl).1 worldAfterPush rfl
  have h2 := (transfer_dual_digest_write cexHash 0 worldRemoteOnly "L" "R" none none "t"
    rfl rfl).2 worldAfterSeedPull rfl
  exact ⟨h1.1, h2.1⟩

theorem cacheHit_of_cache_eq {w₁ w₂ : SyncWorld} (h : w₁.cache = w₂.cache) (rpath : String) :
    cacheHit w₁ rpath = cacheHit w₂ rpath := by
  unfold cacheHit
  rw [h]

theorem download_to_tempfile_miss (w : SyncWorld) (rpath : String) (p : Option Patcher)
    (h : cacheHit w rpath = false) :
    download_to_tempfile w rpath p =
      match w.remoteFs rpath with
      | none => Except.error FtpError.errorPerm
      | some raw =>
        Except.ok ({ w with cache := some rpath }, patchedDownload p raw) := by
  unfold download_to_tempfile
  rw [h]
  simp

/-- C9 counterexample.  The first `_get_sync_direction` on a pair whose
remote file exists succeeds (here `REMOTE_TO_LOCAL`) and leaves the
local and remote filesystems and both digest-store partitions unchanged
— only the download cache now holds the closed tempfile keyed by the
remote path.  Running `_get_sync_direction` again on that state does
not yield the same verdict: it raises the uncaught `ValueError` of
`seek(0)` on the closed cached tempfile (FTP.py:269). -/
theorem decide_twice_crashes_cex :
    get_sync_direction cexHash worldRemoteOnly "L" "R" none
      = Except.ok ({ worldRemoteOnly with cache := some "R" },
          SyncDir.remoteToLocal, some (cexHash [2]))
  ∧ ({ worldRemoteOnly with cache := some "R" } : SyncWorld).localFs
      = worldRemoteOnly.localFs
  ∧ ({ worldRemoteOnly with cache := some "R" } : SyncWorld).remoteFs
      = worldRemoteOnly.remoteFs
  ∧ ({ worldRemoteOnly with cache := some "R" } : SyncWorld).hdbLocal
      = worldRemoteOnly.hdbLocal
  ∧ ({ worldRemoteOnly with cache := some "R" } : SyncWorld).hdbRemote
      = worldRemoteOnly.hdbRemote
  ∧ get_sync_direction cexHash { worldRemoteOnly with cache := some "R" } "L" "R" none
      = Except.error FtpError.valueError :=
  ⟨rfl, rfl, rfl, rfl, rfl, rfl⟩

/-- C9 amended.  For a pair whose remote path is not already keyed in
the download cache: `_get_sync_direction` never mutates the digest
store; when the remote file is missing it leaves the whole state
unchanged — so a second run is the very same call and returns the very
same verdict and digest; but when the remote file exists, the first run
returns its verdict having cached the (closed) downloaded tempfile, and
the second run raises an uncaught `ValueError` instead of returning any
verdict. -/
theorem decide_rerun_behavior (md5 : Bytes → String) (w : SyncWorld) (lpath rpath : String)
    (p : Option Patcher) (hnc : cacheHit w rpath = false) :
    (∀ w1 vd, get_sync_direction md5 w lpath rpath p = Except.ok (w1, vd) →
        w1.hdbLocal = w.hdbLocal ∧ w1.hdbRemote = w.hdbRemote)
  ∧ (w.remoteFs rpath = none →
      get_sync_direction md5 w lpath rpath p
        = Except.ok (w, verdictOf (w.hdbLocal lpath) (w.hdbRemote rpath)
            (get_digest_local md5 w lpath) none))
  ∧ (∀ raw, w.remoteFs rpath = some raw →
      get_sync_direction md5 w lpath rpath p
        = Except.ok ({ w with cache := some rpath },
            verdictOf (w.hdbLocal lpath) (w.hdbRemote rpath)
              (get_digest_local md5 w lpath) (some (md5 (patchedDownload p raw))))
      ∧ get_sync_direction md5 { w with cache := some rpath } lpath rpath p
          = Except.error FtpError.valueError) := by
  refine ⟨?_, ?_, ?_⟩
  · intro w1 vd h
    unfold get_sync_direction get_digest_remote at h
    rw [download_to_tempfile_miss w rpath p hnc] at h
    cases hrf : w.remoteFs rpath with
    | none =>
      simp only [hrf] at h
      injection h with h
      injection h with h1 h2
      subst h1
      exact ⟨rfl, rfl⟩
    | some raw =>
      simp only [hrf] at h
      injection h with h
      injection h with h1 h2
      subst h1
      exact ⟨rfl, rfl⟩
  · intro hrf
    unfold get_sync_direction get_digest_remote
    rw [download_to_tempfile_miss w rpath p hnc]
    simp only [hrf]
  · intro raw hrf
    constructor
    · unfold get_sync_direction get_digest_remote
      rw [download_to_tempfile_miss w rpath p hnc]
      simp only [hrf]
    · unfold get_sync_direction get_digest_remote download_to_tempfile cacheHit
      simp

/-- Witness for the amended C9: the missing-remote case leaves the state
unchanged with a computed verdict, and the existing-remote case makes
the second run fail with `ValueError`. -/
theorem decide_rerun_behavior_w :
    get_sync_direction cexHash emptyWorld "L" "R" none
      = Except.ok (emptyWorld, verdictOf (emptyWorld.hdbLocal "L") (emptyWorld.hdbRemote "R")
          (get_digest_local cexHash emptyWorld "L") none)
  ∧ get_sync_direction cexHash { worldRemoteOnly with cache := some "R" } "L" "R" none
      = Except.error FtpError.valueError := by
  refine ⟨(decide_rerun_behavior cexHash emptyWorld "L" "R" none (by decide)).2.1 rfl, ?_⟩
  exact ((decide_rerun_behavior cexHash worldRemoteOnly "L" "R" none (by decide)).2.2
    [2] rfl).2

theorem decide_after_fresh (md5 : Bytes → String) (w' : SyncWorld) (lpath rpath : String)
    (p : Option Patcher) (d : String)
    (h1 : w'.hdbLocal lpath = some d) (h2 : w'.hdbRemote rpath = some d)
    (h3 : get_digest_local md5 w' lpath = some d)
    (h4 : cacheHit w' rpath = false)
    (h5 : ∃ c, w'.remoteFs rpath = some c ∧ md5 (patchedDownload p c) = d) :
    get_sync_direction md5 w' lpath rpath p
      = Except.ok ({ w' with cache := some rpath }, SyncDir.doNotSync, none) := by
  obtain ⟨c, hc, hd⟩ := h5
  unfold get_sync_direction get_digest_remote
  rw [download_to_tempfile_miss w' rpath p h4]
  simp only [hc]
  rw [h1, h2, h3, hd]
  simp [verdictOf]

set_option maxRecDepth 16384 in
/-- C5 counterexample.  A successful push through the shipped
`DESMumePatcher` of a local file shorter than the footer (here one
byte): the push completes — the backup reads the existing remote, the
upload stores `to_remote([1]) = []`, both digests record the local
hash — and neither side's content changes afterwards, yet the
subsequent `_get_sync_direction` with the same transform hashes
`from_remote([]) = DESMUME_FOOTER`, sees a "changed" remote, and
returns `REMOTE_TO_LOCAL` instead of `DO_NOT_SYNC`: the transform does
not round-trip on content that does not carry the footer. -/
theorem push_then_decide_transform_cex :
    sync_to cexHash 1 worldPair "L" "R" (some DESMumePatcher) none "t"
      = some worldAfterShortPush
  ∧ worldAfterShortPush.localFs "L" = worldPair.localFs "L"
  ∧ get_sync_direction cexHash worldAfterShortPush "L" "R" (some DESMumePatcher)
      = Except.ok ({ worldAfterShortPush with cache := some "R" },
          SyncDir.remoteToLocal, some (cexHash DESMUME_FOOTER)) :=
  ⟨rfl, rfl, rfl⟩

/-- C5 amended.  For every file pair, after a successful push (`sync_to`
with the digest computed from the local content) completes and neither
side's content changes afterwards, a subsequent `_get_sync_direction`
on the same pair with the same transform returns `DO_NOT_SYNC` —
provided the transform round-trips on the pushed content (the contract
the specification imposes on inputs the system produces).  No cache
assumption is needed: a successful push already implies the download
cache was not keyed to the remote path, since the backup step would
otherwise have crashed on the closed cached tempfile. -/
theorem push_roundtrip_then_decide_noSync (md5 : Bytes → String) (n : Nat)
    (w w' : SyncWorld) (lpath rpath : String) (p : Option Patcher) (now : String)
    (bs : Bytes)
    (hld : w.localIsDir lpath = false) (hrd : w.remoteIsDir rpath = false)
    (hl : w.localFs lpath = some bs)
    (hround : patchedDownload p (uploadBytes p bs) = bs)
    (hpush : sync_to md5 (n + 1) w lpath rpath p none now = some w') :
    get_sync_direction md5 w' lpath rpath p
      = Except.ok ({ w' with cache := some rpath }, SyncDir.doNotSync, none) := by
  simp only [sync_to, hld, hrd] at hpush
  rw [if_neg (by simp), if_pos (by simp)] at hpush
  cases hb : backup w now rpath true with
  | none =>
    simp only [hb] at hpush
    exact Option.noConfusion hpush
  | some wb =>
    simp only [hb] at hpush
    cases hu : upload_file wb lpath rpath p with
    | none =>
      simp only [hu] at hpush
      exact Option.noConfusion hpush
    | some wu =>
      simp only [hu] at hpush
      obtain rfl := Option.some.inj hpush
      unfold backup at hb
      rw [if_pos rfl] at hb
      cases hdc : downloadContentVia w rpath none with
      | none =>
        rw [hdc] at hb
        exact Option.noConfusion hb
      | some c =>
        rw [hdc] at hb
        simp only [Option.map_some'] at hb
        obtain rfl := Option.some.inj hb
        have hch : cacheHit w rpath = false := by
          cases hcc : cacheHit w rpath with
          | false => rfl
          | true =>
            unfold downloadContentVia at hdc
            rw [hcc] at hdc
            simp at hdc
        obtain ⟨hulf, -, -, hucache, bs', hbs', hurf⟩ :=
          upload_file_fields _ wu lpath rpath p hu
        have hbs : bs = bs' := by
          have hwl : w.localFs lpath = some bs' := hbs'
          rw [hl] at hwl
          exact Option.some.inj hwl
        subst hbs
        refine decide_after_fresh md5 _ lpath rpath p (md5 bs) ?_ ?_ ?_ ?_ ?_
        · unfold get_digest_local
          rw [hl]
          simp [set_previous_digest, updateFn]
        · unfold get_digest_local
          rw [hl]
          simp [set_previous_digest, updateFn]
        · unfold get_digest_local
          show (wu.localFs lpath).map md5 = some (md5 bs)
          rw [hulf]
          show (w.localFs lpath).map md5 = some (md5 bs)
          rw [hl]
          rfl
        · have hcc2 : (set_previous_digest (set_previous_digest wu lpath
              (get_digest_local md5 w lpath) false) rpath
              (get_digest_local md5 w lpath) true).cache = w.cache := hucache
          rw [cacheHit_of_cache_eq hcc2]
          exact hch
        · refine ⟨uploadBytes p bs, ?_, ?_⟩
          · show wu.remoteFs rpath = some (uploadBytes p bs)
            rw [hurf]
            simp [updateFn]
          · rw [hround]

/-- Witness for the amended C5 at the concrete `worldPair` with no
patcher (the identity transform round-trips on everything). -/
theorem push_roundtrip_then_decide_noSync_w :
    get_sync_direction cexHash worldAfterPush "L" "R" none
      = Except.ok ({ worldAfterPush with cache := some "R" }, SyncDir.doNotSync, none) :=
  push_roundtrip_then_decide_noSync cexHash 0 worldPair worldAfterPush "L" "R" none "t"
    [1] rfl rfl rfl rfl rfl

theorem splitSlash_ne_nil (cs : List Char) : splitSlash cs ≠ [] := by
  cases cs with
  | nil => simp [splitSlash]
  | cons c rest =>
    rw [splitSlash]
    cases hsr : splitSlash rest with
    | nil => by_cases h : c = '/' <;> simp [h, hsr]
    | cons h0 t0 => by_cases h : c = '/' <;> simp [h, hsr]

theorem splitSlash_append (a b : List Char) :
    splitSlash (a ++ '/' :: b) = splitSlash a ++ splitSlash b := by
  induction a with
  | nil =>
    show splitSlash ('/' :: b) = splitSlash [] ++ splitSlash b
    rw [splitSlash]
    simp [splitSlash]
  | cons c a ih =>
    show splitSlash (c :: (a ++ '/' :: b)) = splitSlash (c :: a) ++ splitSlash b
    by_cases h : c = '/'
    · subst h
      rw [splitSlash, ih]
      conv_rhs => rw [splitSlash]
      simp
    · obtain ⟨h0, t0, ht⟩ := List.exists_cons_of_ne_nil (splitSlash_ne_nil a)
      rw [splitSlash, ih, ht]
      conv_rhs => rw [splitSlash]
      rw [ht]
      simp [h]

theorem splitSlash_no_slash (cs : List Char) (h : ∀ c ∈ cs, c ≠ '/') :
    splitSlash cs = [cs] := by
  induction cs with
  | nil => rfl
  | cons c rest ih =>
    have hc : c ≠ '/' := h c (List.mem_cons_self _ _)
    have hr := ih (fun x hx => h x (List.mem_cons_of_mem _ hx))
    rw [splitSlash, hr]
    simp [hc]

theorem pathNameL_no_slash (file : List Char) (hf : ∀ c ∈ file, c ≠ '/')
    (hne : file ≠ []) (hnd : file ≠ ['.']) : pathNameL file = file := by
  unfold pathNameL pathComponentsL
  rw [splitSlash_no_slash file hf]
  simp [hne, hnd]

theorem pathNameL_append (dir file : List Char) (hf : ∀ c ∈ file, c ≠ '/')
    (hne : file ≠ []) (hnd : file ≠ ['.']) :
    pathNameL (dir ++ '/' :: file) = file := by
  unfold pathNameL pathComponentsL
  rw [splitSlash_append, List.filter_append, splitSlash_no_slash file hf]
  have hkeep : (decide (file ≠ [] ∧ file ≠ ['.'])) = true := by
    simp [hne, hnd]
  simp only [List.filter_cons, hkeep, List.filter_nil]
  exact List.getLastD_concat _ _ _

theorem nameStemL_subset (cs : List Char) : ∀ c ∈ nameStemL cs, c ∈ cs := by
  intro c hc
  simp only [nameStemL] at hc
  cases hdrop : cs.reverse.dropWhile (fun x => x != '.') with
  | nil =>
    rw [hdrop] at hc
    exact hc
  | cons d before =>
    rw [hdrop] at hc
    change c ∈ (if cs.reverse.takeWhile (fun x => x != '.') ≠ [] ∧ before ≠ []
      then before.reverse else cs) at hc
    by_cases hcond : cs.reverse.takeWhile (fun x => x != '.') ≠ [] ∧ before ≠ []
    · rw [if_pos hcond] at hc
      have h1 : c ∈ before := List.mem_reverse.mp hc
      have h2 : c ∈ cs.reverse.dropWhile (fun x => x != '.') := by
        rw [hdrop]
        exact List.mem_cons_of_mem _ h1
      have h3 : c ∈ cs.reverse := (List.dropWhile_sublist _).mem h2
      exact List.mem_reverse.mp h3
    · rw [if_neg hcond] at hc
      exact hc

/-- C10.  When `sync`'s extension remap fires for a path of the form
`dir ++ "/" ++ file` (the declared suffix differs from the path's
suffix), the rewritten path is exactly the final component's stem
followed by the declared suffix — and that stem contains no `'/'`, so
every parent directory component of the original path is dropped. -/
theorem remap_drops_parent_dirs (dir file ext : String)
    (hf : ∀ c ∈ file.toList, c ≠ '/') (hne : file ≠ "") (hnd : file ≠ ".")
    (hsuf : pathSuffix (dir ++ "/" ++ file) ≠ ext) :
    remapPath (dir ++ "/" ++ file) (some ext) = pathStem file ++ ext
  ∧ ∀ c ∈ (pathStem file).toList, c ≠ '/' := by
  have htl : (dir ++ "/" ++ file).toList = dir.toList ++ '/' :: file.toList := by
    show (dir ++ "/" ++ file).data = dir.data ++ '/' :: file.data
    rw [String.data_append, String.data_append, List.append_assoc]
    rfl
  have hne' : file.toList ≠ [] := by
    intro h
    exact hne (String.ext h)
  have hnd' : file.toList ≠ ['.'] := by
    intro h
    exact hnd (String.ext h)
  have hnm : pathNameL (dir ++ "/" ++ file).toList = file.toList := by
    rw [htl]
    exact pathNameL_append dir.toList file.toList hf hne' hnd'
  have hnmf : pathNameL file.toList = file.toList :=
    pathNameL_no_slash file.toList hf hne' hnd'
  constructor
  · show (if pathSuffix (dir ++ "/" ++ file) ≠ ext
        then pathStem (dir ++ "/" ++ file) ++ ext else dir ++ "/" ++ file)
      = pathStem file ++ ext
    rw [if_pos hsuf]
    unfold pathStem
    rw [hnm, hnmf]
  · intro c hc
    have hc' : c ∈ nameStemL (pathNameL file.toList) := hc
    rw [hnmf] at hc'
    exact hf c (nameStemL_subset file.toList c hc')

/-- Witness for C10: a two-level local path with a declared `.dsv`
suffix is rewritten to the bare stem of its final component plus the
suffix. -/
theorem remap_drops_parent_dirs_w :
    remapPath ("saves/deep" ++ "/" ++ "game.sav") (some ".dsv") = pathStem "game.sav" ++ ".dsv"
  ∧ ∀ c ∈ (pathStem "game.sav").toList, c ≠ '/' :=
  remap_drops_parent_dirs "saves/deep" "game.sav" ".dsv" (by decide) (by decide) (by decide)
    (by decide)
